import Mathlib

/-!
Verification of the eink-panel refresh/orchestration core against its
natural-language specification.  The Python source under `src/` is shallowly
embedded: pure fragments become Lean functions, stateful fragments become
explicit state passing, clock values become integers (microseconds), and
fallible operations return `Option`/sum-like types.
-/

namespace EinkPanel

/-! ## Quiet hours engine (src/main.py, `is_in_quiet_hours`)

`pendulum` datetimes are embedded as a day index plus wall-clock fields;
comparisons between datetimes become comparisons of absolute microsecond
timestamps.  `now.replace(hour=h, minute=0, second=0, microsecond=0)` keeps
the day and zeroes everything below the hour; `add(days=1)`/`subtract(days=1)`
shift the timestamp by one day of microseconds. -/

def usPerSecond : Int := 1000000

def usPerDay : Int := 86400 * 1000000

structure Clock where
  day : Int
  hour : Nat
  minute : Nat
  second : Nat
  micro : Nat

/-- Well-formed wall-clock fields. -/
def Clock.WF (c : Clock) : Prop :=
  c.hour < 24 ∧ c.minute < 60 ∧ c.second < 60 ∧ c.micro < 1000000

/-- Absolute timestamp in microseconds. -/
def Clock.ts (c : Clock) : Int :=
  c.day * usPerDay +
    ((((c.hour * 60 + c.minute) * 60 + c.second) * 1000000 + c.micro : Nat) : Int)

/-- Timestamp of `now.replace(hour=h, minute=0, second=0, microsecond=0)`. -/
def Clock.replaceHourTs (c : Clock) (h : Nat) : Int :=
  c.day * usPerDay + ((h * 3600 * 1000000 : Nat) : Int)

/-- Embedding of `is_in_quiet_hours` from `src/main.py`.  Returns the
quiet flag together with the truncated whole-second sleep duration. -/
def is_in_quiet_hours (quiet_start_hour quiet_end_hour : Nat) (now : Clock) :
    Bool × Int :=
  let start_time := now.replaceHourTs quiet_start_hour
  let end_time := now.replaceHourTs quiet_end_hour
  let p : Int × Int :=
    if quiet_start_hour > quiet_end_hour then
      if now.hour ≥ quiet_start_hour then (start_time, end_time + usPerDay)
      else if now.hour < quiet_end_hour then (start_time - usPerDay, end_time)
      else (start_time, end_time)
    else (start_time, end_time)
  if p.1 ≤ now.ts ∧ now.ts < p.2 then (true, (p.2 - now.ts) / usPerSecond)
  else (false, 0)

end EinkPanel

namespace EinkPanel

/-- C3: for hours `start`, `end` in `[0,24)` and any well-formed clock time,
the quiet-hours check reports quiet exactly as the spec's three cases state:
`start < end` gives quiet iff `hour ∈ [start, end)`; `start > end` gives
quiet iff `hour ≥ start ∨ hour < end`; `start = end` is never quiet. -/
theorem quiet_hours_cases (s e : Nat) (now : Clock)
    (hs : s < 24) (he : e < 24) (hw : now.WF) :
    ((is_in_quiet_hours s e now).1 = true ↔
      (if s < e then s ≤ now.hour ∧ now.hour < e
       else if e < s then s ≤ now.hour ∨ now.hour < e
       else False)) := by
  obtain ⟨h1, h2, h3, h4⟩ := hw
  unfold is_in_quiet_hours Clock.ts Clock.replaceHourTs usPerDay
  split_ifs <;> simp_all
  all_goals try (split_ifs <;> try simp_all)
  all_goals omega

/-- Witness for `quiet_hours_cases` at a concrete wrapping window and time. -/
theorem quiet_hours_cases_witness :
    (23 : Nat) < 24 ∧ (6 : Nat) < 24 ∧
      (Clock.WF ⟨0, 2, 15, 30, 123⟩) ∧
      ((is_in_quiet_hours 23 6 ⟨0, 2, 15, 30, 123⟩).1 = true ↔
        (if (23 : Nat) < 6 then 23 ≤ (⟨0, 2, 15, 30, 123⟩ : Clock).hour ∧
            (⟨0, 2, 15, 30, 123⟩ : Clock).hour < 6
         else if (6 : Nat) < 23 then 23 ≤ (⟨0, 2, 15, 30, 123⟩ : Clock).hour ∨
            (⟨0, 2, 15, 30, 123⟩ : Clock).hour < 6
         else False)) :=
  ⟨by decide, by decide, by refine ⟨by decide, by decide, by decide, by decide⟩,
    quiet_hours_cases 23 6 ⟨0, 2, 15, 30, 123⟩ (by decide) (by decide)
      ⟨by decide, by decide, by decide, by decide⟩⟩

end EinkPanel

namespace EinkPanel

/-! ## Content cache (src/providers/base.py, `BaseContentProvider`)

The provider's cache file may be absent, unreadable/corrupt, or hold a
timestamped payload.  `datetime` values are embedded as integer seconds.
`random.choice` on the fallback pool is embedded as indexing by an arbitrary
natural number reduced modulo the pool size (`none` when the pool is empty,
mirroring the `IndexError` `random.choice` would raise). -/

/-- Payload shape of `ContentData` (a `TypedDict` in the source). -/
structure ContentData where
  content : String
  author : String
  source : String
  type : String
deriving DecidableEq

/-- On-disk cache file state for one provider. -/
inductive CacheFileState
  | absent
  | corrupt
  | stored (timestamp : Int) (payload : ContentData)
deriving DecidableEq

/-- The cache/fallback fields of `BaseContentProvider.__init__`. -/
structure Provider where
  fallback_data : List ContentData
  cache_hours : Nat

/-- Embedding of `BaseContentProvider._get_cached_content`: `none` on a
missing file, unreadable JSON, or an entry older than `cache_hours`. -/
def Provider.get_cached_content (p : Provider) (file : CacheFileState)
    (now : Int) : Option ContentData :=
  match file with
  | .absent => none
  | .corrupt => none
  | .stored t payload =>
      if now - t < (p.cache_hours : Int) * 3600 then some payload else none

/-- Embedding of `BaseContentProvider._save_cache` (success path): the
write-temp-then-rename replaces the file with a fresh timestamped entry. -/
def Provider.save_cache (_p : Provider) (_file : CacheFileState)
    (content : ContentData) (now : Int) : CacheFileState :=
  .stored now content

/-- Outcome of `self._fetch_content(client)`. -/
inductive FetchOutcome
  | ok (content : ContentData)
  | httpError
  | parseError
  | unexpectedError
deriving DecidableEq

/-- Embedding of `BaseContentProvider._get_fallback`, i.e.
`random.choice(self.fallback_data)` with the random draw supplied as an
index; `none` models the `IndexError` on an empty pool. -/
def Provider.get_fallback (p : Provider) (r : Nat) : Option ContentData :=
  p.fallback_data.get? (r % p.fallback_data.length)

/-- What a call to `get_content` does: return a value, or let an
exception escape. -/
inductive GetResult
  | value (a : ContentData)
  | raised
deriving DecidableEq

/-- Embedding of `BaseContentProvider.get_content`: cached value if valid;
else fetch, persisting on success; on any fetch exception, the fallback. -/
def Provider.get_content (p : Provider) (file : CacheFileState) (now : Int)
    (fetch : FetchOutcome) (r : Nat) : GetResult × CacheFileState :=
  match p.get_cached_content file now with
  | some c => (.value c, file)
  | none =>
      match fetch with
      | .ok c => (.value c, p.save_cache file c now)
      | _ =>
          match p.get_fallback r with
          | some a => (.value a, file)
          | none => (.raised, file)

end EinkPanel

namespace EinkPanel

/-- C2: when the cache misses (absent, expired, or unreadable) and the
fetcher raises any exception, `get_content` returns the fallback-pool member
selected by the random draw, that value is a member of the pool, and no
exception propagates to the caller. -/
theorem get_content_fallback (p : Provider) (file : CacheFileState) (now : Int)
    (fetch : FetchOutcome) (r : Nat)
    (hmiss : p.get_cached_content file now = none)
    (hfail : ∀ c, fetch ≠ .ok c)
    (hpool : p.fallback_data ≠ []) :
    ∃ hlt : r % p.fallback_data.length < p.fallback_data.length,
      (p.get_content file now fetch r).1 =
          .value (p.fallback_data.get ⟨r % p.fallback_data.length, hlt⟩) ∧
        (∀ a, (p.get_content file now fetch r).1 = .value a →
          a ∈ p.fallback_data) ∧
        (p.get_content file now fetch r).1 ≠ .raised := by
  have hlen : 0 < p.fallback_data.length := List.length_pos.mpr hpool
  have hlt : r % p.fallback_data.length < p.fallback_data.length :=
    Nat.mod_lt _ hlen
  refine ⟨hlt, ?_⟩
  have hres : (p.get_content file now fetch r).1 =
      .value (p.fallback_data.get ⟨r % p.fallback_data.length, hlt⟩) := by
    unfold Provider.get_content
    rw [hmiss]
    have hfb : p.get_fallback r =
        some (p.fallback_data.get ⟨r % p.fallback_data.length, hlt⟩) := by
      unfold Provider.get_fallback
      exact List.get?_eq_get hlt
    cases fetch with
    | ok c => exact absurd rfl (hfail c)
    | httpError => simp [hfb]
    | parseError => simp [hfb]
    | unexpectedError => simp [hfb]
  refine ⟨hres, ?_, ?_⟩
  · intro a ha
    rw [hres] at ha
    cases ha
    exact List.get_mem _ _ _
  · rw [hres]
    intro hcontra
    cases hcontra

/-- Witness for `get_content_fallback` on a concrete provider and failure. -/
theorem get_content_fallback_witness :
    let fb : ContentData := ⟨"c", "a", "s", "quote"⟩
    let p : Provider := ⟨[fb], 6⟩
    p.get_cached_content .absent 1000 = none ∧
      (∀ c, FetchOutcome.httpError ≠ .ok c) ∧
      p.fallback_data ≠ [] ∧
      ∃ hlt : 3 % p.fallback_data.length < p.fallback_data.length,
        (p.get_content .absent 1000 .httpError 3).1 =
            .value (p.fallback_data.get ⟨3 % p.fallback_data.length, hlt⟩) ∧
          (∀ a, (p.get_content .absent 1000 .httpError 3).1 = .value a →
            a ∈ p.fallback_data) ∧
          (p.get_content .absent 1000 .httpError 3).1 ≠ .raised := by
  refine ⟨rfl, ?_, ?_, ?_⟩
  · intro c h
    cases h
  · intro h
    cases h
  · exact get_content_fallback _ .absent 1000 .httpError 3 rfl
      (fun c h => by cases h) (fun h => by cases h)

/-- C6: saving a payload at time `t` and reading back at a later time `t'`
returns exactly that payload while `t' − t < ttl` and misses once
`t' − t ≥ ttl`; in particular an entry timestamped `now − ttl − 1s` misses. -/
theorem cache_roundtrip_expiry (p : Provider) (file : CacheFileState)
    (payload : ContentData) (t t' : Int) (hlater : t ≤ t') :
    (t' - t < (p.cache_hours : Int) * 3600 →
        p.get_cached_content (p.save_cache file payload t) t' = some payload) ∧
      ((p.cache_hours : Int) * 3600 ≤ t' - t →
        p.get_cached_content (p.save_cache file payload t) t' = none) ∧
      p.get_cached_content
        (p.save_cache file payload (t' - (p.cache_hours : Int) * 3600 - 1)) t' =
        none := by
  refine ⟨fun h => ?_, fun h => ?_, ?_⟩ <;>
    simp only [Provider.save_cache, Provider.get_cached_content]
  · rw [if_pos h]
  · rw [if_neg (by omega)]
  · rw [if_neg (by omega)]

/-- Witness for `cache_roundtrip_expiry` on a concrete provider and times. -/
theorem cache_roundtrip_expiry_witness :
    (100 : Int) ≤ 200 ∧
      (((200 : Int) - 100 <
          ((Provider.mk [] 6).cache_hours : Int) * 3600 →
        (Provider.mk [] 6).get_cached_content
          ((Provider.mk [] 6).save_cache .absent ⟨"c", "a", "s", "q"⟩ 100)
          200 = some ⟨"c", "a", "s", "q"⟩) ∧
        (((Provider.mk [] 6).cache_hours : Int) * 3600 ≤ (200 : Int) - 100 →
          (Provider.mk [] 6).get_cached_content
            ((Provider.mk [] 6).save_cache .absent ⟨"c", "a", "s", "q"⟩ 100)
            200 = none) ∧
        (Provider.mk [] 6).get_cached_content
          ((Provider.mk [] 6).save_cache .absent ⟨"c", "a", "s", "q"⟩
            (200 - ((Provider.mk [] 6).cache_hours : Int) * 3600 - 1))
          200 = none) :=
  ⟨by norm_num,
    cache_roundtrip_expiry ⟨[], 6⟩ .absent ⟨"c", "a", "s", "q"⟩ 100 200
      (by norm_num)⟩

end EinkPanel

namespace EinkPanel

/-! ## Task manager (src/core/task_manager.py, `TaskManager`)

The `self._tasks` dict is embedded as an insertion-ordered association list
from task name to an abstract task identifier; dict deletion becomes
`eraseP` on the unique key and dict insertion of a fresh key becomes an
append.  Launched coroutines are opaque: only the bookkeeping is modelled
here (the lock discipline is treated separately below). -/

structure TaskManager where
  tasks : List (String × Nat)
  nextId : Nat
deriving DecidableEq

/-- Unique-key invariant that Python's dict enforces structurally. -/
def TaskManager.NoDupKeys (tm : TaskManager) : Prop :=
  (tm.tasks.map Prod.fst).Nodup

/-- `name in self._tasks` / `self._tasks[name]` lookup. -/
def TaskManager.lookup (tm : TaskManager) (name : String) : Option Nat :=
  (tm.tasks.find? (fun p => p.1 == name)).map Prod.snd

/-- Embedding of `TaskManager._stop_task`: unknown names return with no
change; otherwise the entry is removed (the `finally: del` branch runs on
every outcome of the awaited stop). -/
def TaskManager.stopTask (tm : TaskManager) (name : String) : TaskManager :=
  if (tm.tasks.find? (fun p => p.1 == name)).isSome then
    { tm with tasks := tm.tasks.eraseP (fun p => p.1 == name) }
  else tm

/-- Embedding of `TaskManager.stop` (lock acquisition then `_stop_task`). -/
def TaskManager.stop (tm : TaskManager) (name : String) : TaskManager :=
  tm.stopTask name

/-- Embedding of `TaskManager.start`: stop any existing task of that name,
then record the freshly created task under the name. -/
def TaskManager.start (tm : TaskManager) (name : String) : TaskManager :=
  let tm1 :=
    if (tm.tasks.find? (fun p => p.1 == name)).isSome then tm.stopTask name
    else tm
  { tasks := tm1.tasks ++ [(name, tm1.nextId)], nextId := tm1.nextId + 1 }

lemma countP_key_eq_zero_of_not_mem (l : List (String × Nat)) (name : String)
    (h : name ∉ l.map Prod.fst) :
    l.countP (fun p => p.1 == name) = 0 := by
  refine List.countP_eq_zero.mpr ?_
  intro a ha hk
  exact h (List.mem_map.mpr ⟨a, ha, by simpa using hk⟩)

lemma not_mem_keys_eraseP (l : List (String × Nat)) (name : String)
    (h : (l.map Prod.fst).Nodup) :
    name ∉ (l.eraseP (fun p => p.1 == name)).map Prod.fst := by
  induction l with
  | nil => simp
  | cons a t ih =>
      simp only [List.map_cons, List.nodup_cons] at h
      obtain ⟨ha, ht⟩ := h
      by_cases hk : (a.1 == name) = true
      · have ha1 : a.1 = name := by simpa using hk
        simp only [List.eraseP_cons, hk, cond_true]
        rw [← ha1]
        exact ha
      · have hk' : (a.1 == name) = false := by simpa using hk
        simp only [List.eraseP_cons, hk', cond_false, List.map_cons,
          List.mem_cons]
        rintro (h1 | h2)
        · exact hk (by simp [h1])
        · exact ih ht h2

lemma nodup_keys_eraseP (l : List (String × Nat)) (name : String)
    (h : (l.map Prod.fst).Nodup) :
    ((l.eraseP (fun p => p.1 == name)).map Prod.fst).Nodup :=
  h.sublist ((List.eraseP_sublist l).map Prod.fst)

lemma find?_eq_none_not_mem_keys (l : List (String × Nat)) (name : String)
    (h : l.find? (fun p => p.1 == name) = none) :
    name ∉ l.map Prod.fst := by
  intro hmem
  obtain ⟨a, ha, hk⟩ := List.mem_map.mp hmem
  have := List.find?_eq_none.mp h a ha
  simp [hk] at this

/-- C4: starting a name leaves exactly one task tracked under that name
(stopping and removing any existing one first), the unique-key discipline is
preserved by `start` and `stop`, and `stop` on an untracked name returns
without raising and leaves the map unchanged. -/
lemma stopTask_eq_of_found (tm : TaskManager) (name : String)
    (hf : (tm.tasks.find? (fun p => p.1 == name)).isSome) :
    tm.stopTask name =
      { tm with tasks := tm.tasks.eraseP (fun p => p.1 == name) } := by
  unfold TaskManager.stopTask
  rw [if_pos hf]

lemma stopTask_eq_of_not_found (tm : TaskManager) (name : String)
    (hf : ¬ (tm.tasks.find? (fun p => p.1 == name)).isSome) :
    tm.stopTask name = tm := by
  unfold TaskManager.stopTask
  rw [if_neg hf]

theorem task_manager_unique_name (tm : TaskManager) (name : String)
    (h : tm.NoDupKeys) :
    (tm.start name).tasks.countP (fun p => p.1 == name) = 1 ∧
      (tm.start name).NoDupKeys ∧
      (tm.stop name).NoDupKeys ∧
      (tm.lookup name = none → tm.stop name = tm) := by
  have hstop : (tm.stopTask name).NoDupKeys := by
    unfold TaskManager.stopTask
    split_ifs with hf
    · exact nodup_keys_eraseP _ _ h
    · exact h
  have hkeys :
      ((if (tm.tasks.find? (fun p => p.1 == name)).isSome then tm.stopTask name
        else tm).tasks.map Prod.fst).Nodup ∧
      name ∉ ((if (tm.tasks.find? (fun p => p.1 == name)).isSome
          then tm.stopTask name else tm).tasks.map Prod.fst) := by
    split_ifs with hf
    · rw [stopTask_eq_of_found tm name hf]
      exact ⟨nodup_keys_eraseP _ _ h, not_mem_keys_eraseP _ _ h⟩
    · exact ⟨h, find?_eq_none_not_mem_keys _ _ (Option.not_isSome_iff_eq_none.mp hf)⟩
  obtain ⟨hnd1, hnm1⟩ := hkeys
  refine ⟨?_, ?_, hstop, ?_⟩
  · simp only [TaskManager.start]
    rw [List.countP_append, countP_key_eq_zero_of_not_mem _ _ hnm1]
    simp [List.countP_cons]
  · simp only [TaskManager.start, TaskManager.NoDupKeys, List.map_append]
    rw [List.nodup_append]
    refine ⟨hnd1, by simp, ?_⟩
    intro a ha hb
    simp only [List.map_cons, List.map_nil, List.mem_singleton] at hb
    subst hb
    exact hnm1 ha
  · intro hl
    unfold TaskManager.stop TaskManager.stopTask
    have hn : tm.tasks.find? (fun p => p.1 == name) = none := by
      unfold TaskManager.lookup at hl
      exact Option.map_eq_none.mp hl
    rw [if_neg (by simp [hn])]

/-- Witness for `task_manager_unique_name` on a concrete two-entry map. -/
theorem task_manager_unique_name_witness :
    (TaskManager.mk [("pager", 0), ("other", 1)] 2).NoDupKeys ∧
      ((TaskManager.mk [("pager", 0), ("other", 1)] 2).start "pager").tasks.countP
          (fun p => p.1 == "pager") = 1 ∧
        ((TaskManager.mk [("pager", 0), ("other", 1)] 2).start "pager").NoDupKeys ∧
        ((TaskManager.mk [("pager", 0), ("other", 1)] 2).stop "pager").NoDupKeys ∧
        ((TaskManager.mk [("pager", 0), ("other", 1)] 2).lookup "pager" = none →
          (TaskManager.mk [("pager", 0), ("other", 1)] 2).stop "pager" =
            TaskManager.mk [("pager", 0), ("other", 1)] 2) :=
  ⟨by unfold TaskManager.NoDupKeys; decide,
    task_manager_unique_name (TaskManager.mk [("pager", 0), ("other", 1)] 2)
      "pager" (by unfold TaskManager.NoDupKeys; decide)⟩

end EinkPanel

namespace EinkPanel

/-! ## Task manager lock discipline (src/core/task_manager.py)

`start` and `stop` are `async with self._lock:` blocks.  Their bodies are
embedded as the ordered list of the atomic operations each one performs,
each paired with whether `self._lock` is held while that operation runs.
`_stop_task` awaits `asyncio.wait_for(task, timeout)` — the tracked task's
remaining execution — and it is only ever called with the lock held. -/

inductive TMOp
  | acquireMutex
  | mapLookup
  | signalStopEvent
  | awaitActivityCompletion
  | mapDelete
  | createActivityTask
  | mapInsert
  | releaseMutex
deriving DecidableEq

/-- Operations of `TaskManager._stop_task` in source order, given whether
the name is tracked, each tagged with lock-held status (always under the
caller's lock). -/
def stop_task_ops (found : Bool) : List (TMOp × Bool) :=
  if found then
    [(.mapLookup, true), (.signalStopEvent, true),
      (.awaitActivityCompletion, true), (.mapDelete, true)]
  else [(.mapLookup, true)]

/-- Operations of `TaskManager.stop`: acquire the mutex, run `_stop_task`
under it, release. -/
def stop_ops (found : Bool) : List (TMOp × Bool) :=
  [(.acquireMutex, false)] ++ stop_task_ops found ++ [(.releaseMutex, true)]

/-- Operations of `TaskManager.start`: under the mutex, check the map, stop
any existing task of the name, create the new task, insert it. -/
def start_ops (found : Bool) : List (TMOp × Bool) :=
  [(.acquireMutex, false), (.mapLookup, true)] ++
    (if found then stop_task_ops true else []) ++
    [(.createActivityTask, true), (.mapInsert, true), (.releaseMutex, true)]

/-- The claim's discipline: the mutex is never held while awaiting a managed
activity's body. -/
def MutexNeverAcrossActivity : Prop :=
  ∀ found : Bool, ∀ op ∈ stop_ops found ++ start_ops found,
    op.1 = TMOp.awaitActivityCompletion → op.2 = false

instance : Decidable MutexNeverAcrossActivity := by
  unfold MutexNeverAcrossActivity
  infer_instance

/-- C9 counterexample: stopping a tracked task awaits the activity's
completion while the mutex is held, so the claimed lock discipline is false
on the code: a slow activity being stopped blocks the mutex (for up to the
stop timeout) against any other start/stop. -/
theorem mutex_across_activity_counterexample : ¬ MutexNeverAcrossActivity := by
  decide

/-- C9 amended: the mutex is held across `stop`'s await of the stopping
activity's completion, and likewise inside `start` when it stops an existing
task of the same name; only when the name is untracked does no awaited
activity body run under the lock. -/
theorem mutex_across_activity_amended :
    (TMOp.awaitActivityCompletion, true) ∈ stop_ops true ∧
      (TMOp.awaitActivityCompletion, true) ∈ start_ops true ∧
      (∀ op ∈ stop_ops false ++ start_ops false,
        op.1 ≠ TMOp.awaitActivityCompletion) := by
  decide

end EinkPanel

namespace EinkPanel

/-! ## Orchestrator mode selection (src/main.py, `main` loop body)

The mode decision and the fetch dispatch are embedded directly: holiday
lookup first, then the Dec-31 check, then the configured mode; in the
`year_end` branch a falsy `data.get("github_year_summary")` demotes to
`dashboard` and fetches dashboard data instead. -/

/-- Which fetcher filled the cycle's data bundle. -/
inductive DataFetch
  | dashboardData
  | yearEndData (github_year_summary : String)
  | quoteData
  | poetryData
  | noData
deriving DecidableEq

/-- The mode-priority decision from the loop body. -/
def selectMode (holidayActive : Bool) (month day : Nat)
    (configuredMode : String) : String :=
  if holidayActive then "holiday"
  else if month = 12 ∧ day = 31 then "year_end"
  else configuredMode

/-- The fetch dispatch from the loop body; `yearEnd` is
`data.get("github_year_summary")` of the year-end bundle, `none` when falsy
or missing.  Returns the (possibly demoted) mode and the fetched bundle. -/
def fetchStep (mode : String) (yearEnd : Option String) : String × DataFetch :=
  if mode = "dashboard" then (mode, .dashboardData)
  else if mode = "year_end" then
    match yearEnd with
    | some s => (mode, .yearEndData s)
    | none => ("dashboard", .dashboardData)
  else if mode = "quote" then (mode, .quoteData)
  else if mode = "poetry" then (mode, .poetryData)
  else (mode, .noData)

/-- C5: mode priority is holiday > Dec-31 year-end > configured mode, and a
year-end cycle whose bundle lacks the year summary demotes to dashboard mode
with dashboard data instead of raising. -/
theorem mode_priority_and_demotion (holiday : Bool) (month day : Nat)
    (configured : String) (yearEnd : Option String) :
    (holiday = true → selectMode holiday month day configured = "holiday") ∧
      (holiday = false → month = 12 → day = 31 →
        selectMode holiday month day configured = "year_end") ∧
      (holiday = false → ¬(month = 12 ∧ day = 31) →
        selectMode holiday month day configured = configured) ∧
      (yearEnd = none →
        fetchStep "year_end" yearEnd = ("dashboard", .dashboardData)) ∧
      (∀ s, yearEnd = some s →
        fetchStep "year_end" yearEnd = ("year_end", .yearEndData s)) := by
  refine ⟨?_, ?_, ?_, ?_, ?_⟩
  · intro hh
    simp [selectMode, hh]
  · intro hh hm hd
    simp [selectMode, hh, hm, hd]
  · intro hh hmd
    simp [selectMode, hh, hmd]
  · intro hy
    simp [fetchStep, hy]
  · intro s hy
    simp [fetchStep, hy]

/-- Witness for `mode_priority_and_demotion` on Dec 31 with no summary. -/
theorem mode_priority_and_demotion_witness :
    (false = true → selectMode false 12 31 "dashboard" = "holiday") ∧
      (false = false → 12 = 12 → 31 = 31 →
        selectMode false 12 31 "dashboard" = "year_end") ∧
      (false = false → ¬(12 = 12 ∧ 31 = 31) →
        selectMode false 12 31 "dashboard" = "dashboard") ∧
      ((none : Option String) = none →
        fetchStep "year_end" none = ("dashboard", .dashboardData)) ∧
      (∀ s, (none : Option String) = some s →
        fetchStep "year_end" none = ("year_end", .yearEndData s)) :=
  mode_priority_and_demotion false 12 31 "dashboard" none

/-! ## Orchestrator loop error handling (src/main.py, `main`)

In `main()` a single `try:`/`except Exception:` wraps the *whole*
`while True` loop; the loop body has no handler of its own, so an exception
raised by a cycle's fetch/render/display steps propagates out of the loop,
is logged by the outer handler, and the `finally:` stops the config watcher
before `main` returns. -/

/-- Outcome of one loop iteration's steps (data fetch, `generate_image`,
`update_display`). -/
inductive CycleOutcome
  | ok
  | raises
deriving DecidableEq

/-- What an execution of `main` did, given scripted per-cycle outcomes. -/
structure MainRun where
  cyclesRun : Nat
  errorLogged : Bool
  loopTerminated : Bool
  watcherStopped : Bool
deriving DecidableEq

/-- Embedding of `main`'s loop under its outer try/except/finally: consume
scripted cycle outcomes; a raising cycle leaves the loop, gets logged, and
reaches the `finally`.  An exhausted all-ok script models a loop still
running. -/
def runMain : List CycleOutcome → MainRun
  | [] => ⟨0, false, false, false⟩
  | .ok :: rest =>
      let r := runMain rest
      ⟨r.cyclesRun + 1, r.errorLogged, r.loopTerminated, r.watcherStopped⟩
  | .raises :: _ => ⟨1, true, true, true⟩

/-- C1 counterexample: with a first cycle that raises and a second scripted
cycle, the code logs the error but leaves the loop — the second iteration
never runs — refuting "the loop proceeds to the next iteration: a single
cycle's failure never terminates the loop". -/
theorem loop_error_counterexample :
    runMain [.raises, .ok] = ⟨1, true, true, true⟩ ∧
      ¬ ((runMain [.raises, .ok]).loopTerminated = false ∧
          (runMain [.raises, .ok]).cyclesRun = 2) := by
  decide

/-- C1 amended: an unhandled error in any cycle is logged by the top-level
handler, but the loop terminates at that cycle — no later iteration runs —
and the config watcher is stopped on the way out; the error itself does not
propagate out of `main`. -/
theorem loop_error_amended (pre post : List CycleOutcome)
    (hpre : ∀ c ∈ pre, c = CycleOutcome.ok) :
    runMain (pre ++ .raises :: post) =
      ⟨pre.length + 1, true, true, true⟩ := by
  induction pre with
  | nil => rfl
  | cons a t ih =>
      have ha : a = .ok := hpre a (by simp)
      subst ha
      have ht := ih (fun c hc => hpre c (by simp [hc]))
      simp only [List.cons_append, runMain, List.length_cons]
      rw [List.append_eq, ht]

/-- Witness for `loop_error_amended` with one good cycle before the error. -/
theorem loop_error_amended_witness :
    (∀ c ∈ [CycleOutcome.ok], c = CycleOutcome.ok) ∧
      runMain ([CycleOutcome.ok] ++ .raises :: [.ok]) =
        ⟨[CycleOutcome.ok].length + 1, true, true, true⟩ :=
  ⟨fun c hc => by simpa using hc,
    loop_error_amended [CycleOutcome.ok] [.ok] (fun c hc => by simpa using hc)⟩

/-! ## Orchestrator wait step (src/main.py, `main` loop tail)

After a display update the loop either waits on `config_changed.wait()`
alone (refresh interval 0) or on
`asyncio.wait_for(config_changed.wait(), timeout=refresh_interval)`.
The external watcher's behaviour is a parameter: when (if ever) it sets the
event during this wait, measured in seconds from the start of the wait. -/

/-- How one wait ends, and the event's state entering the next iteration. -/
structure WaitOutcome where
  wakeTime : Nat
  byEvent : Bool
  eventSetAfter : Bool
deriving DecidableEq

/-- Embedding of the wait step.  `none` means the wait never ends. -/
def waitStep (refresh_interval : Nat) (eventFiresAt : Option Nat) :
    Option WaitOutcome :=
  if refresh_interval = 0 then
    match eventFiresAt with
    | none => none
    | some t => some ⟨t, true, false⟩
  else
    match eventFiresAt with
    | none => some ⟨refresh_interval, false, false⟩
    | some t =>
        if t < refresh_interval then some ⟨t, true, false⟩
        else some ⟨refresh_interval, false, false⟩

/-- C7: a zero interval blocks solely on the config-change event (never
waking without it, waking exactly when it fires); a positive interval always
ends the wait; and any wait ended by the event clears the event before the
next iteration and discards the remaining timer interval (resuming at the
fire time, strictly before the full interval when one was armed). -/
theorem wait_step_spec (interval : Nat) (fires : Option Nat) :
    (waitStep 0 none = none) ∧
      (∀ t, waitStep 0 (some t) = some ⟨t, true, false⟩) ∧
      (interval ≠ 0 → (waitStep interval fires).isSome) ∧
      (∀ out, waitStep interval fires = some out → out.byEvent = true →
        out.eventSetAfter = false ∧ fires = some out.wakeTime ∧
          (interval ≠ 0 → out.wakeTime < interval)) := by
  refine ⟨rfl, fun t => rfl, ?_, ?_⟩
  · intro hi
    unfold waitStep
    rw [if_neg hi]
    cases fires with
    | none => rfl
    | some t =>
        by_cases hlt : t < interval
        · simp [hlt]
        · simp [hlt]
  · intro out hout hev
    by_cases hi : interval = 0
    · subst hi
      cases fires with
      | none =>
          have hred : waitStep 0 none = none := rfl
          rw [hred] at hout
          cases hout
      | some t =>
          have hred : waitStep 0 (some t) = some ⟨t, true, false⟩ := rfl
          rw [hred] at hout
          cases hout
          exact ⟨rfl, rfl, fun h => absurd rfl h⟩
    · cases fires with
      | none =>
          have hred : waitStep interval none =
              some ⟨interval, false, false⟩ := by
            unfold waitStep
            rw [if_neg hi]
          rw [hred] at hout
          cases hout
          cases hev
      | some t =>
          have hred : waitStep interval (some t) =
              if t < interval then some ⟨t, true, false⟩
              else some ⟨interval, false, false⟩ := by
            unfold waitStep
            rw [if_neg hi]
          rw [hred] at hout
          by_cases hlt : t < interval
          · rw [if_pos hlt] at hout
            cases hout
            exact ⟨rfl, rfl, fun _ => hlt⟩
          · rw [if_neg hlt] at hout
            cases hout
            cases hev

/-- Witness for `wait_step_spec`: a 600 s timer interrupted at 50 s. -/
theorem wait_step_spec_witness :
    (waitStep 0 none = none) ∧
      (∀ t, waitStep 0 (some t) = some ⟨t, true, false⟩) ∧
      ((600 : Nat) ≠ 0 → (waitStep 600 (some 50)).isSome) ∧
      (∀ out, waitStep 600 (some 50) = some out → out.byEvent = true →
        out.eventSetAfter = false ∧ (some 50 : Option Nat) = some out.wakeTime ∧
          ((600 : Nat) ≠ 0 → out.wakeTime < 600)) :=
  wait_step_spec 600 (some 50)

end EinkPanel

namespace EinkPanel

/-! ## Hacker News pagination (src/providers/hackernews.py, `get_hackernews`)

The persisted pagination state, the story cache, and the two fetch outcomes
are passed in explicitly; the returned record carries the result dictionary
plus which state/cache writes (if any) the call performed.  Python's slice
`stories[start_idx - 1 : end_idx]` becomes drop-then-take. -/

structure HNStory where
  id : Nat
  title : String
  score : Nat
deriving DecidableEq

/-- The dictionary `get_hackernews` returns. -/
structure HNResult where
  stories : List HNStory
  page : Nat
  total_pages : Nat
  start_idx : Nat
  end_idx : Nat
deriving DecidableEq

/-- Outcome of fetching the best-stories list from the HN API. -/
inductive HNFetch
  | fetchOk (stories : List HNStory)
  | fetchFail
deriving DecidableEq

/-- One call's result plus the writes it performed (`_write_state`,
`_write_cache`); `none` means the corresponding file was not touched. -/
structure HNCall where
  result : HNResult
  stateWrite : Option Nat
  cacheWrite : Option (List HNStory)
deriving DecidableEq

/-- The pagination tail of `get_hackernews` (total pages by ceiling
division, wraparound to 1, slice indices, page slice), returning the result
together with the page number handed to `_write_state`. -/
def hnPaginate (per_page : Nat) (stories : List HNStory) (current_page : Nat) :
    HNResult × Nat :=
  let total_pages := (stories.length + per_page - 1) / per_page
  let cp := if current_page > total_pages then 1 else current_page
  let start_idx := (cp - 1) * per_page + 1
  let end_idx := min (cp * per_page) stories.length
  let page_stories := (stories.drop (start_idx - 1)).take (end_idx - (start_idx - 1))
  (⟨page_stories, cp, total_pages, start_idx, end_idx⟩, cp)

/-- Embedding of `get_hackernews`: read state, optionally advance, then use
the cache, or on a cache miss fetch; a failed fetch or an empty story list
returns the fixed empty result before any write; a successful fetch caches
the stories and resets to page 1. -/
def get_hackernews (per_page state_page : Nat) (advance_page : Bool)
    (cached : Option (List HNStory)) (fetch : HNFetch) : HNCall :=
  let current_page := if advance_page then state_page + 1 else state_page
  match cached with
  | some stories =>
      let pr := hnPaginate per_page stories current_page
      ⟨pr.1, some pr.2, none⟩
  | none =>
      match fetch with
      | .fetchFail => ⟨⟨[], 1, 1, 1, 0⟩, none, none⟩
      | .fetchOk stories =>
          if stories.isEmpty then ⟨⟨[], 1, 1, 1, 0⟩, none, none⟩
          else
            let pr := hnPaginate per_page stories 1
            ⟨pr.1, some pr.2, some stories⟩

end EinkPanel

namespace EinkPanel

/-- C8: on a non-empty story list, `total_pages` is the ceiling of
`storyCount / pageSize` (characterized order-theoretically), the possibly
advanced page wraps to 1 exactly when it exceeds `total_pages`, and the
persisted `current_page` equals the returned page and lies in
`[1, total_pages]`. -/
theorem hackernews_pagination (per_page state_page : Nat) (advance : Bool)
    (stories : List HNStory) (fetch : HNFetch)
    (hpp : 1 ≤ per_page) (hsp : 1 ≤ state_page) (hs : stories ≠ []) :
    (get_hackernews per_page state_page advance (some stories) fetch).result.total_pages
        = (stories.length + per_page - 1) / per_page ∧
      per_page *
          ((get_hackernews per_page state_page advance (some stories) fetch).result.total_pages
            - 1) < stories.length ∧
      stories.length ≤ per_page *
          (get_hackernews per_page state_page advance (some stories) fetch).result.total_pages ∧
      (get_hackernews per_page state_page advance (some stories) fetch).result.page =
        (if (if advance then state_page + 1 else state_page) >
            (stories.length + per_page - 1) / per_page
         then 1 else (if advance then state_page + 1 else state_page)) ∧
      (get_hackernews per_page state_page advance (some stories) fetch).stateWrite =
        some (get_hackernews per_page state_page advance (some stories) fetch).result.page ∧
      1 ≤ (get_hackernews per_page state_page advance (some stories) fetch).result.page ∧
      (get_hackernews per_page state_page advance (some stories) fetch).result.page ≤
        (get_hackernews per_page state_page advance (some stories) fetch).result.total_pages := by
  have hlen1 : 1 ≤ stories.length := List.length_pos.mpr hs
  have hdm := Nat.div_add_mod (stories.length - 1) per_page
  have hr : (stories.length - 1) % per_page < per_page := Nat.mod_lt _ (by omega)
  have hlen : stories.length =
      per_page * ((stories.length - 1) / per_page) +
        (stories.length - 1) % per_page + 1 := by omega
  have hmulsucc : per_page * ((stories.length - 1) / per_page + 1) =
      per_page * ((stories.length - 1) / per_page) + per_page :=
    Nat.mul_succ per_page _
  have ht : (stories.length + per_page - 1) / per_page =
      (stories.length - 1) / per_page + 1 := by
    have harg : stories.length + per_page - 1 =
        per_page * ((stories.length - 1) / per_page + 1) +
          (stories.length - 1) % per_page := by
      rw [hmulsucc]
      omega
    rw [harg, Nat.mul_add_div (by omega), Nat.div_eq_of_lt hr]
  refine ⟨rfl, ?_, ?_, rfl, rfl, ?_, ?_⟩
  · show per_page * ((stories.length + per_page - 1) / per_page - 1) <
      stories.length
    rw [ht]
    simp only [Nat.add_sub_cancel]
    omega
  · show stories.length ≤
      per_page * ((stories.length + per_page - 1) / per_page)
    rw [ht, hmulsucc]
    omega
  · show 1 ≤ (if (if advance then state_page + 1 else state_page) >
        (stories.length + per_page - 1) / per_page then 1
      else (if advance then state_page + 1 else state_page))
    split_ifs <;> omega
  · show (if (if advance then state_page + 1 else state_page) >
        (stories.length + per_page - 1) / per_page then 1
      else (if advance then state_page + 1 else state_page)) ≤
        (stories.length + per_page - 1) / per_page
    rw [ht]
    split_ifs <;>
      first
      | exact Nat.succ_le_succ (Nat.zero_le _)
      | (rename_i hnw; exact Nat.le_of_not_lt hnw)

/-- A concrete 20-story list for the spec's worked pagination example. -/
def hnStories20 : List HNStory := (List.range 20).map (fun i => ⟨i, "s", 0⟩)

/-- Witness for `hackernews_pagination`, also checking the spec's worked
example: 20 stories at 5 per page give 4 pages and advancing calls cycle
1→2→3→4→1. -/
theorem hackernews_pagination_witness :
    ((1 : Nat) ≤ 5 ∧ (1 : Nat) ≤ 4 ∧ hnStories20 ≠ [] ∧
      ((get_hackernews 5 4 true (some hnStories20) .fetchFail).result.total_pages
          = (hnStories20.length + 5 - 1) / 5 ∧
        5 * ((get_hackernews 5 4 true (some hnStories20) .fetchFail).result.total_pages
          - 1) < hnStories20.length ∧
        hnStories20.length ≤ 5 *
          (get_hackernews 5 4 true (some hnStories20) .fetchFail).result.total_pages ∧
        (get_hackernews 5 4 true (some hnStories20) .fetchFail).result.page =
          (if (if true then (4 : Nat) + 1 else 4) > (hnStories20.length + 5 - 1) / 5
           then 1 else (if true then (4 : Nat) + 1 else 4)) ∧
        (get_hackernews 5 4 true (some hnStories20) .fetchFail).stateWrite =
          some (get_hackernews 5 4 true (some hnStories20) .fetchFail).result.page ∧
        1 ≤ (get_hackernews 5 4 true (some hnStories20) .fetchFail).result.page ∧
        (get_hackernews 5 4 true (some hnStories20) .fetchFail).result.page ≤
          (get_hackernews 5 4 true (some hnStories20) .fetchFail).result.total_pages)) ∧
      (get_hackernews 5 1 true (some hnStories20) .fetchFail).result.page = 2 ∧
      (get_hackernews 5 2 true (some hnStories20) .fetchFail).result.page = 3 ∧
      (get_hackernews 5 3 true (some hnStories20) .fetchFail).result.page = 4 ∧
      (get_hackernews 5 4 true (some hnStories20) .fetchFail).result.page = 1 ∧
      (get_hackernews 5 4 true (some hnStories20) .fetchFail).result.total_pages = 4 :=
  ⟨⟨by decide, by decide, by decide,
      hackernews_pagination 5 4 true hnStories20 .fetchFail (by decide) (by decide)
        (by decide)⟩,
    rfl, rfl, rfl, rfl, rfl⟩

/-- C10: on a cache miss, a failed fetch or an empty fetched story list
returns exactly the fixed empty-result dictionary and performs no state
write (and no cache write), leaving the persisted pagination state
unchanged. -/
theorem hackernews_error_path (per_page state_page : Nat) (advance : Bool) :
    get_hackernews per_page state_page advance none .fetchFail =
        ⟨⟨[], 1, 1, 1, 0⟩, none, none⟩ ∧
      get_hackernews per_page state_page advance none (.fetchOk []) =
        ⟨⟨[], 1, 1, 1, 0⟩, none, none⟩ := by
  constructor <;> rfl

end EinkPanel
